import Mathlib

/-!
Verification of the movie-ratings ETL pipeline (extract / transform / load).

The development shallowly embeds the three pipeline stages:
  * `src/pipelines/transform.py` — the field parsers (`_infer_year_from_title`,
    `_parse_box_office`, `_parse_runtime`, `_parse_released`) and the
    `transform` routine (genre explosion, user derivation, OMDb normalization,
    output-file selection);
  * `src/pipelines/extract.py` — the retried OMDb fetch (`_fetch_omdb_raw`),
    the per-record fetch loop, and the acquisition `run` with its
    skip-if-present checks;
  * `src/pipelines/load.py` — file validation (`_validate_files`), typed
    parsing (`_read_processed`), and the transactional bulk replace (`load`).

Python text is modelled as `List Char` (code points); Python exceptions as
`Except`; the OMDb HTTP call as an oracle `Nat → Option Payload` giving the
outcome of each attempt; sleep durations in integer milliseconds (the source's
0.5 s base delay is the exact value 500 ms); the SQL store as a function from
table name to row list, with the transaction's per-statement failures injected
by a `Nat → Bool` oracle indexed by statement position.
-/

/-! ## Python-level text primitives -/

/-- Digit-string value: `foldl` over ASCII digit characters. -/
def digitsVal (cs : List Char) : Nat :=
  cs.foldl (fun a c => 10 * a + (c.toNat - 48)) 0

/-- A nonempty all-digit character list. -/
def digitsShape (cs : List Char) : Bool :=
  !cs.isEmpty && cs.all Char.isDigit

/-- Python `int(s)` on the digit strings produced by the regexes of
`transform.py`: succeeds exactly on nonempty all-digit text, raising
`ValueError` otherwise. -/
def pyInt (cs : List Char) : Except Unit Int :=
  if digitsShape cs then .ok (digitsVal cs) else .error ()

/-- Python `str.strip()`: drop leading and trailing whitespace. -/
def pyStrip (cs : List Char) : List Char :=
  ((cs.dropWhile Char.isWhitespace).reverse.dropWhile Char.isWhitespace).reverse

/-- Python `str.lower()` (ASCII). -/
def pyLower (cs : List Char) : List Char :=
  cs.map Char.toLower

/-- Python `str.split(sep)` for a one-character separator: never returns an
empty list, and splitting the empty string yields `[[]]`. -/
def pySplit (sep : Char) : List Char → List (List Char)
  | [] => [[]]
  | c :: cs =>
    match pySplit sep cs with
    | r :: rs => if c = sep then [] :: r :: rs else (c :: r) :: rs
    | [] => [[]]

/-- Code-point lexicographic `≤` on text, as Python compares strings. -/
def strLeb : List Char → List Char → Bool
  | [], _ => true
  | _ :: _, [] => false
  | a :: as, b :: bs =>
    if a.toNat < b.toNat then true
    else if b.toNat < a.toNat then false
    else strLeb as bs

/-- Left-pad with `'0'` to the given width, Python `str.zfill`. -/
def zfill (width : Nat) (s : String) : String :=
  String.mk (List.replicate (width - s.data.length) '0' ++ s.data)

/-! ## Python values and the four normalization parsers (`transform.py`) -/

/-- A Python value as seen by the parsers: a string, or any non-string value
(`pandas` NaN, `None`, numbers, …) — the parsers only distinguish strings
from everything else via `isinstance(value, str)`. -/
inductive PyVal
  | str (s : String)
  | nonStr
deriving DecidableEq

/-- A calendar date as produced by `pd.to_datetime(...).date()`. -/
structure PyDate where
  year : Nat
  month : Nat
  day : Nat
deriving DecidableEq

/-- Python `date.isoformat()`. -/
def isoformat (d : PyDate) : String :=
  zfill 4 (Nat.repr d.year) ++ "-" ++ zfill 2 (Nat.repr d.month) ++ "-" ++ zfill 2 (Nat.repr d.day)

/-- The last six characters of a text, when it has at least six. -/
def yearWindow (cs : List Char) : Option (Char × Char × Char × Char × Char × Char) :=
  match cs.drop (cs.length - 6) with
  | [a, d1, d2, d3, d4, b] => some (a, d1, d2, d3, d4, b)
  | _ => none

/-- The regex `\((\d{4})\)$`: the captured group when the text ends in an
opening bracket, four digit characters, and a closing bracket. Because the
pattern is end-anchored the only candidate window is the last six characters. -/
def yearGroup (cs : List Char) : Option (List Char) :=
  match yearWindow cs with
  | some (a, d1, d2, d3, d4, b) =>
    if a = '(' ∧ b = ')' ∧ d1.isDigit ∧ d2.isDigit ∧ d3.isDigit ∧ d4.isDigit then
      some [d1, d2, d3, d4]
    else none
  | none => none

/-- `transform._infer_year_from_title`: non-strings give `None`; otherwise the
stripped title is searched with `\((\d{4})\)$`, the group is converted with
`int` (a `ValueError` is caught and gives `None`), and the year is kept only
inside `[1870, 2100]`. -/
def _infer_year_from_title (v : PyVal) : Except Unit (Option Nat) :=
  match v with
  | .str title =>
    match yearGroup (pyStrip title.data) with
    | some g =>
      match pyInt g with
      | .ok y => if 1870 ≤ y ∧ y ≤ 2100 then .ok (some y.toNat) else .ok none
      | .error _ => .ok none
    | none => .ok none
  | .nonStr => .ok none

/-- `transform._parse_box_office`: non-strings and `"N/A"` give `None`; all
non-digit characters are removed, an empty remainder gives `None`, otherwise
`int` is applied with no surrounding `try` block. -/
def _parse_box_office (v : PyVal) : Except Unit (Option Int) :=
  match v with
  | .str s =>
    if s = "N/A" then .ok none
    else
      match s.data.filter Char.isDigit with
      | [] => .ok none
      | ds =>
        match pyInt ds with
        | .ok n => .ok (some n)
        | .error e => .error e
  | .nonStr => .ok none

/-- The regex search `(\d+)`: first maximal digit run, if any. -/
def firstDigitRun : List Char → Option (List Char)
  | [] => none
  | c :: cs => if c.isDigit then some (c :: cs.takeWhile Char.isDigit) else firstDigitRun cs

/-- `transform._parse_runtime`: non-strings and `"N/A"` give `None`; otherwise
the first digit run is converted with `int`, `None` when there is none. -/
def _parse_runtime (v : PyVal) : Except Unit (Option Int) :=
  match v with
  | .str s =>
    if s = "N/A" then .ok none
    else
      match firstDigitRun s.data with
      | some ds =>
        match pyInt ds with
        | .ok n => .ok (some n)
        | .error e => .error e
      | none => .ok none
  | .nonStr => .ok none

/-- `transform._parse_released`: non-strings and `"N/A"` give `None`;
otherwise `pd.to_datetime(value).date().isoformat()` is attempted and any
exception whatsoever yields `None`. The external `pd.to_datetime` is an
arbitrary fallible function `td`. -/
def _parse_released (td : String → Except Unit PyDate) (v : PyVal) : Except Unit (Option String) :=
  match v with
  | .str s =>
    if s = "N/A" then .ok none
    else
      match td s with
      | .ok d => .ok (some (isoformat d))
      | .error _ => .ok none
  | .nonStr => .ok none

/-- Modelled from the spec: a title has the year shape exactly when it ends
with a four-digit value enclosed in parentheses; the value must fall in
`[1870, 2100]` or is treated as absent (spec §4.2 and §8, the sentences behind
claim C3). This is applied to the raw title text, with no trimming: the spec
requires the bracketed year at the end of the title. -/
def specYearOfTitle (cs : List Char) : Option Nat :=
  match yearWindow cs with
  | some (a, d1, d2, d3, d4, b) =>
    if a = '(' ∧ b = ')' ∧ d1.isDigit ∧ d2.isDigit ∧ d3.isDigit ∧ d4.isDigit then
      if 1870 ≤ digitsVal [d1, d2, d3, d4] ∧ digitsVal [d1, d2, d3, d4] ≤ 2100 then
        some (digitsVal [d1, d2, d3, d4])
      else none
    else none
  | none => none

/-! ## The transform stage (`transform.py`, `transform`) -/

/-- A row of `movies.csv` as read by `pd.read_csv`: `movieId`, `title`, and
the `genres` field (absent when the cell is NaN, which `fillna("")` turns
into the empty string). -/
structure MovieRow where
  movieId : Nat
  title : String
  genres : Option String
deriving DecidableEq

/-- A row of `ratings.csv`: `userId`, `movieId`, `rating`, `timestamp`. -/
structure RatingRow where
  userId : Nat
  movieId : Nat
  rating : ℚ
  timestamp : Nat
deriving DecidableEq

/-- A row of the raw OMDb cache `omdb_raw.csv`: the `_movieId` join tag added
by the extract stage plus the raw API fields used by `transform`. -/
structure OmdbRawRow where
  movieIdTag : Option Nat
  imdbID : Option String
  director : Option String
  plot : Option String
  boxOffice : PyVal
  released : PyVal
  runtime : PyVal
  language : Option String
  country : Option String

/-- The raw OMDb cache file: whether the `_movieId` column is present, and
its rows. -/
structure OmdbRawFile where
  hasMovieIdCol : Bool
  rows : List OmdbRawRow

/-- A normalized `omdb_details` row. -/
structure OmdbRow where
  movie_id : Nat
  imdb_id : Option String
  director : Option String
  plot : Option String
  box_office : Option Int
  released_date : Option String
  runtime_minutes : Option Int
  language : Option String
  country : Option String

/-- The three inputs `transform` reads from the raw directory; `none` means
the file does not exist. -/
structure TransformInput where
  moviesCsv : Option (List MovieRow)
  ratingsCsv : Option (List RatingRow)
  omdbRaw : Option OmdbRawFile

/-- The in-memory entity tables built by `transform`, plus the names of the
output files it writes. -/
structure TransformOut where
  movies : List (Nat × String × Option Nat)
  genres : List (List Char)
  movieGenres : List (Nat × List Char)
  users : List Nat
  ratings : List RatingRow
  omdb : List OmdbRow
  writes : List String

/-- A transform-stage failure: the mandatory inputs are missing, or a Python
exception escaped a parser application. -/
inductive TErr
  | missingInputs
  | pyExc

/-- `pandas` `Series.apply f`: the first exception raised by `f` propagates,
otherwise the list of results. -/
def mapExcept (f : α → Except ε β) : List α → Except ε (List β)
  | [] => .ok []
  | a :: l =>
    match f a with
    | .error e => .error e
    | .ok b =>
      match mapExcept f l with
      | .error e => .error e
      | .ok bs => .ok (b :: bs)

/-- `pandas` `drop_duplicates` with an accumulator of already-seen values:
keeps the first occurrence of each value. -/
def pdDropDupGo [DecidableEq α] (seen : List α) : List α → List α
  | [] => []
  | a :: l => if a ∈ seen then pdDropDupGo seen l else a :: pdDropDupGo (a :: seen) l

/-- `pandas` `drop_duplicates`: keep the first occurrence of each value. -/
def pdDropDup [DecidableEq α] (l : List α) : List α := pdDropDupGo [] l

/-- Ordering on `(movie_id, genre)` pairs used by
`sort_values(["movie_id", "genre"])`. -/
def pairLE (a b : Nat × List Char) : Bool :=
  decide (a.1 < b.1) || (decide (a.1 = b.1) && strLeb a.2 b.2)

/-- The `Prop` form of `pairLE`. -/
def pairLe (a b : Nat × List Char) : Prop := pairLE a b = true

instance : DecidableRel pairLe := fun a b => inferInstanceAs (Decidable (pairLE a b = true))

/-- The `Prop` form of lexicographic text order. -/
def strLe (a b : List Char) : Prop := strLeb a b = true

instance : DecidableRel strLe := fun a b => inferInstanceAs (Decidable (strLeb a b = true))

/-- The split-and-trim step of genre explosion: each movie's genre field
(`fillna("")`) is split on `"|"` and every token stripped, paired with the
movie id. -/
def explodePairs (movies : List MovieRow) : List (Nat × List Char) :=
  movies.flatMap fun r =>
    (pySplit '|' ((r.genres.getD "").data)).map fun tok => (r.movieId, pyStrip tok)

/-- The token filter of genre explosion: drop empty tokens and the
case-insensitive sentinel `"(no genres listed)"`. -/
def keepTok (t : List Char) : Bool :=
  !t.isEmpty && !(pyLower t == "(no genres listed)".data)

/-- Genre explosion (`transform.py` lines 79–94): split, strip, filter,
deduplicate, and sort by `(movie_id, genre)`. -/
def explodeGenres (movies : List MovieRow) : List (Nat × List Char) :=
  List.insertionSort pairLe (pdDropDup ((explodePairs movies).filter fun p => keepTok p.2))

/-- The `genres` table: distinct genre values of `movie_genres`, sorted. -/
def genresOf (mg : List (Nat × List Char)) : List (List Char) :=
  List.insertionSort strLe (pdDropDup (mg.map Prod.snd))

/-- The `users` table: distinct `userId` values of the ratings, sorted. -/
def usersOf (ratings : List RatingRow) : List Nat :=
  List.insertionSort (· ≤ ·) (pdDropDup (ratings.map RatingRow.userId))

/-- Per-row OMDb field parsing: the three parser columns applied to a raw
row (any escaping exception propagates, as under `pandas.apply`). -/
def parseOmdbRow (td : String → Except Unit PyDate) (r : OmdbRawRow) :
    Except Unit (Option Int × Option String × Option Int) :=
  match _parse_box_office r.boxOffice with
  | .error e => .error e
  | .ok bo =>
    match _parse_released td r.released with
    | .error e => .error e
    | .ok rd =>
      match _parse_runtime r.runtime with
      | .error e => .error e
      | .ok rt => .ok (bo, rd, rt)

/-- OMDb normalization: parse the `BoxOffice`, `Released` and `Runtime`
columns, then `dropna(subset=["movie_id"])` — rows without the `_movieId`
join tag are dropped. -/
def normalizeOmdb (td : String → Except Unit PyDate) (rows : List OmdbRawRow) :
    Except Unit (List OmdbRow) :=
  match mapExcept (fun r => (parseOmdbRow td r).map fun x => (r, x)) rows with
  | .error e => .error e
  | .ok parsed =>
    .ok (parsed.filterMap fun x =>
      x.1.movieIdTag.map fun mid =>
        ⟨mid, x.1.imdbID, x.1.director, x.1.plot, x.2.1, x.2.2.1, x.2.2.2, x.1.language, x.1.country⟩)

/-- `transform.transform`: fail when `movies.csv` or `ratings.csv` is absent;
derive years, explode genres, derive users; normalize the OMDb cache when it
exists and has the `_movieId` column, else use an empty table; write the five
base entity files, plus `omdb_details.csv` only when the OMDb table is
non-empty. -/
def transform (td : String → Except Unit PyDate) (inp : TransformInput) :
    Except TErr TransformOut :=
  match inp.moviesCsv, inp.ratingsCsv with
  | some movies, some ratings =>
    match mapExcept
        (fun r => (_infer_year_from_title (.str r.title)).map fun y => (r.movieId, r.title, y))
        movies with
    | .error _ => .error .pyExc
    | .ok moviesNorm =>
      let mg := explodeGenres movies
      match
        (match inp.omdbRaw with
         | none => Except.ok []
         | some f => if f.hasMovieIdCol then normalizeOmdb td f.rows else Except.ok []) with
      | .error _ => .error .pyExc
      | .ok omdb =>
        .ok
          { movies := moviesNorm
            genres := genresOf mg
            movieGenres := mg
            users := usersOf ratings
            ratings := ratings
            omdb := omdb
            writes :=
              ["movies.csv", "genres.csv", "movie_genres.csv", "users.csv", "ratings.csv"] ++
                (if omdb.isEmpty then [] else ["omdb_details.csv"]) }
  | _, _ => .error .missingInputs

/-! ## The extract stage (`extract.py`) -/

/-- A raw OMDb response body. -/
abbrev Payload := String

/-- A row of `links.csv`: the external `imdbId` and the internal `movieId`,
either possibly NaN. -/
structure LinkRow where
  imdbId : Option Nat
  movieId : Option Nat
deriving DecidableEq

/-- `extract._imdb_tt`: `None` for NaN, otherwise the numeric id zero-padded
to seven digits behind the `"tt"` marker expected by the OMDb API. -/
def _imdb_tt (imdbNumeric : Option Nat) : Option String :=
  imdbNumeric.map fun n => "tt" ++ zfill 7 (Nat.repr n)

/-- An observable event of one `_fetch_omdb_raw` call: an HTTP request for a
given attempt number, or a `time.sleep` for the given number of milliseconds. -/
inductive FetchEv
  | request (attempt : Nat)
  | sleep (ms : Nat)
deriving DecidableEq

/-- The attempt loop of `_fetch_omdb_raw`: `oracle a` is the outcome of the
`a`-th HTTP attempt (`none` — a `requests.RequestException`). Each failed
attempt is followed by `time.sleep(backoff * attempt)`; after the last
allowed attempt the function returns `None`. -/
def fetchAttempts (oracle : Nat → Option Payload) (backoffMs : Nat) :
    Nat → Nat → Option Payload × List FetchEv
  | _, 0 => (none, [])
  | attempt, n + 1 =>
    match oracle attempt with
    | some p => (some p, [.request attempt])
    | none =>
      let r := fetchAttempts oracle backoffMs (attempt + 1) n
      (r.1, .request attempt :: .sleep (backoffMs * attempt) :: r.2)

/-- `extract._fetch_omdb_raw`: attempts numbered from 1 up to `maxRetries`
(3 in the source), with backoff base 0.5 s = 500 ms. Returns the first
successful payload, or `None` after exhausting the attempts, together with
the event trace. -/
def _fetch_omdb_raw (oracle : Nat → Option Payload) (maxRetries backoffMs : Nat) :
    Option Payload × List FetchEv :=
  fetchAttempts oracle backoffMs 1 maxRetries

/-- An observable event of the acquisition `run`: downloading the archive,
unpacking it, one HTTP attempt against the OMDb API for a given id, a backoff
sleep, or writing the raw OMDb cache file. -/
inductive AcqEv
  | download
  | unzip
  | apiReq (imdbId : String) (attempt : Nat)
  | apiSleep (ms : Nat)
  | writeCache
deriving DecidableEq

/-- Events of one per-record fetch, tagged with the record's id. -/
def fetchEvToAcq (imdbId : String) : FetchEv → AcqEv
  | .request a => .apiReq imdbId a
  | .sleep ms => .apiSleep ms

/-- The per-record loop of `extract.run`: rows without a usable `imdbId` are
skipped; a record whose fetch returns `None` is skipped; each retained payload
is tagged with the row's `movieId`; the loop stops once `limit` records have
been retained. `oracleOf id a` is the outcome of attempt `a` for id `id`. -/
def fetchLoop (oracleOf : String → Nat → Option Payload) (limit : Nat) :
    List LinkRow → Nat → List (Payload × Option Nat) × List AcqEv
  | [], _ => ([], [])
  | r :: rs, count =>
    match _imdb_tt r.imdbId with
    | none => fetchLoop oracleOf limit rs count
    | some tid =>
      let f := _fetch_omdb_raw (oracleOf tid) 3 500
      let evs := f.2.map (fetchEvToAcq tid)
      match f.1 with
      | none =>
        let p := fetchLoop oracleOf limit rs count
        (p.1, evs ++ p.2)
      | some payload =>
        if limit ≤ count + 1 then ([(payload, r.movieId)], evs)
        else
          let p := fetchLoop oracleOf limit rs (count + 1)
          ((payload, r.movieId) :: p.1, evs ++ p.2)

/-- The relevant file-system state of the acquisition working directory. -/
structure AcqFs where
  zipExists : Bool
  mlDirExists : Bool
  dataFilesPresent : Bool
  omdbRawExists : Bool
deriving DecidableEq

/-- An acquisition failure: expected data files absent after unpacking, or no
API key configured. -/
inductive ExtractErr
  | missingDataFiles
  | missingApiKey
deriving DecidableEq

/-- `extract._download_zip`: skip when the archive is already present,
otherwise download it. -/
def _download_zip (zipExists : Bool) : List AcqEv :=
  if zipExists then [] else [.download]

/-- `extract.run`: download the archive unless present; unpack unless the
unpacked directory exists; fail when the three expected data files are absent
or no API key is set; run the per-record OMDb fetch loop; write the raw cache
file exactly when at least one record was retained. Returns the event trace
and the resulting file-system state. -/
def extractRun (fs : AcqFs) (apiKey : Option String) (limit : Nat)
    (links : List LinkRow) (oracleOf : String → Nat → Option Payload) :
    Except ExtractErr (List AcqEv × AcqFs) :=
  let dlEvs := _download_zip fs.zipExists
  let uzEvs : List AcqEv := if fs.mlDirExists then [] else [.unzip]
  if fs.dataFilesPresent then
    match apiKey with
    | none => .error .missingApiKey
    | some _ =>
      let p := fetchLoop oracleOf limit links 0
      let wEvs : List AcqEv := if p.1.isEmpty then [] else [.writeCache]
      .ok (dlEvs ++ uzEvs ++ p.2 ++ wEvs,
        ⟨true, true, fs.dataFilesPresent, fs.omdbRawExists || !p.1.isEmpty⟩)
  else .error .missingDataFiles

/-! ## The load stage (`load.py`) -/

/-- The six expected processed files, in the order of `load.FILES`. -/
def FILES : List String :=
  ["movies.csv", "genres.csv", "movie_genres.csv", "users.csv", "ratings.csv", "omdb_details.csv"]

/-- A typed cell after `astype` coercion. `floatCell` keeps the validated
source text of a `float64` cell; its numeric value is never consumed by the
loader. -/
inductive Cell
  | int (n : Int)
  | str (s : List Char)
  | optInt (o : Option Int)
  | floatCell (s : List Char)
deriving DecidableEq

/-- A column's declared `astype` target: `int64`, `float64`, `string`,
nullable `Int64`, or no entry in the `astype` mapping (the column is kept as
read). -/
inductive ColType
  | i64
  | f64
  | strCol
  | i64null
  | keep
deriving DecidableEq

/-- Integer parsing for `astype("int64")`: an optional minus sign and digits. -/
def parseI64 (cs : List Char) : Option Int :=
  match cs with
  | '-' :: rest => if digitsShape rest then some (-(digitsVal rest : Int)) else none
  | _ => if digitsShape cs then some (digitsVal cs) else none

/-- Shape check for `astype("float64")`: the empty cell (NaN) is accepted, and
otherwise an optional minus sign, digits, and an optional fractional part. -/
def floatBody (cs : List Char) : Bool :=
  match pySplit '.' cs with
  | [a] => digitsShape a
  | [a, b] => digitsShape a && digitsShape b
  | _ => false

/-- Acceptance for a `float64` cell. -/
def floatShape (cs : List Char) : Bool :=
  cs.isEmpty ||
    (match cs with
     | '-' :: rest => floatBody rest
     | _ => floatBody cs)

/-- Coerce one raw cell to its declared column type; `none` when the coercion
is impossible. An empty cell is NaN: accepted by `Int64` (missing) and
`float64`, rejected by `int64`. -/
def coerceCell : ColType → List Char → Option Cell
  | .i64, cs => (parseI64 cs).map .int
  | .f64, cs => if floatShape cs then some (.floatCell cs) else none
  | .strCol, cs => some (.str cs)
  | .keep, cs => some (.str cs)
  | .i64null, cs =>
    if cs.isEmpty then some (.optInt none)
    else (parseI64 cs).map fun n => .optInt (some n)

/-- Coerce one row against the positional column schema. -/
def coerceRow : List ColType → List (List Char) → Option (List Cell)
  | [], [] => some []
  | t :: ts, c :: cs =>
    match coerceCell t c, coerceRow ts cs with
    | some v, some vs => some (v :: vs)
    | _, _ => none
  | _, _ => none

/-- Coerce every row of a table; `none` as soon as any cell fails. -/
def coerceTable (schema : List ColType) : List (List (List Char)) → Option (List (List Cell))
  | [] => some []
  | r :: rs =>
    match coerceRow schema r, coerceTable schema rs with
    | some v, some vs => some (v :: vs)
    | _, _ => none

/-- `movies.csv` columns `(movie_id, title, year)` under
`astype({"movie_id": "int64"})`: only `movie_id` is coerced; `title` and
`year` are kept as read. -/
def moviesSchema : List ColType := [.i64, .keep, .keep]

/-- `genres.csv` column `(genre)` under `astype({"genre": "string"})`. -/
def genresSchema : List ColType := [.strCol]

/-- `movie_genres.csv` columns `(movie_id, genre)`. -/
def movieGenresSchema : List ColType := [.i64, .strCol]

/-- `users.csv` column `(user_id)`. -/
def usersSchema : List ColType := [.i64]

/-- `ratings.csv` columns `(user_id, movie_id, rating, rating_timestamp)`. -/
def ratingsSchema : List ColType := [.i64, .i64, .f64, .i64]

/-- `omdb_details.csv` columns `(movie_id, imdb_id, director, plot,
box_office, released_date, runtime_minutes, language, country)`. -/
def omdbSchema : List ColType :=
  [.i64, .strCol, .strCol, .strCol, .i64null, .strCol, .i64null, .strCol, .strCol]

/-- Modelled from the spec (§3, behind claim C7): the `movies` entity declares
`movie_id` an integer, `title` a string, and `year` an optional integer, so a
§3-typed read of `movies.csv` coerces all three columns. -/
def specMoviesSchema : List ColType := [.i64, .strCol, .i64null]

/-- The processed directory: raw rows per file name, `none` when the file does
not exist. -/
structure ProcessedDir where
  files : String → Option (List (List (List Char)))

/-- A load-stage failure before the transaction: missing files, or a type
coercion that is impossible. -/
inductive LoadErr
  | missingFiles (names : List String)
  | coercionFailure
deriving DecidableEq

/-- `load._validate_files`: collect the expected files that do not exist, in
`FILES` order, and fail naming all of them when any is absent. -/
def _validate_files (d : ProcessedDir) : Except LoadErr Unit :=
  match FILES.filter fun n => (d.files n).isNone with
  | [] => .ok ()
  | ms => .error (.missingFiles ms)

/-- `load._read_processed`: validate existence, then coerce each of the six
tables against its `astype` schema, failing when any coercion is impossible. -/
def _read_processed (d : ProcessedDir) :
    Except LoadErr
      (List (List Cell) × List (List Cell) × List (List Cell) ×
        List (List Cell) × List (List Cell) × List (List Cell)) :=
  match _validate_files d with
  | .error e => .error e
  | .ok _ =>
    match coerceTable moviesSchema ((d.files "movies.csv").getD []),
        coerceTable genresSchema ((d.files "genres.csv").getD []),
        coerceTable movieGenresSchema ((d.files "movie_genres.csv").getD []),
        coerceTable usersSchema ((d.files "users.csv").getD []),
        coerceTable ratingsSchema ((d.files "ratings.csv").getD []),
        coerceTable omdbSchema ((d.files "omdb_details.csv").getD []) with
    | some m, some g, some mg, some u, some r, some o => .ok (m, g, mg, u, r, o)
    | _, _, _, _, _, _ => .error .coercionFailure

/-- Decidable success condition of the coercion phase: every one of the six
tables coerces against its schema. -/
def allSixCoerce (d : ProcessedDir) : Bool :=
  (coerceTable moviesSchema ((d.files "movies.csv").getD [])).isSome &&
    (coerceTable genresSchema ((d.files "genres.csv").getD [])).isSome &&
    (coerceTable movieGenresSchema ((d.files "movie_genres.csv").getD [])).isSome &&
    (coerceTable usersSchema ((d.files "users.csv").getD [])).isSome &&
    (coerceTable ratingsSchema ((d.files "ratings.csv").getD [])).isSome &&
    (coerceTable omdbSchema ((d.files "omdb_details.csv").getD [])).isSome

/-- The six target tables of the SQL store. -/
inductive Tbl
  | movies
  | genres
  | users
  | movie_genres
  | ratings
  | omdb_details
deriving DecidableEq

/-- The SQL store: rows per table. -/
def DBState : Type := Tbl → List (List Cell)

/-- One statement issued inside the load transaction. -/
inductive LoadOp
  | pragmaFK
  | del (t : Tbl)
  | ins (t : Tbl) (rows : List (List Cell))

/-- The parsed tables handed to the transaction. -/
structure LoadInputs where
  movies : List (List Cell)
  genres : List (List Cell)
  users : List (List Cell)
  movieGenres : List (List Cell)
  ratings : List (List Cell)
  omdb : List (List Cell)

/-- The `DELETE` order of `load.load`: the tuple iterated by its clearing
loop. -/
def deleteOrder : List Tbl :=
  [.ratings, .movie_genres, .omdb_details, .users, .genres, .movies]

/-- The statements issued inside the single `engine.begin()` block of
`load.load`, in program order: the foreign-key pragma, the deletes, the five
unconditional inserts, and the `omdb_details` insert only when that table is
non-empty. -/
def loadOps (inp : LoadInputs) : List LoadOp :=
  [LoadOp.pragmaFK] ++ deleteOrder.map LoadOp.del ++
    [LoadOp.ins .movies inp.movies, LoadOp.ins .genres inp.genres,
      LoadOp.ins .users inp.users, LoadOp.ins .movie_genres inp.movieGenres,
      LoadOp.ins .ratings inp.ratings] ++
    (if inp.omdb.isEmpty then [] else [LoadOp.ins .omdb_details inp.omdb])

/-- SQL semantics of one successful statement: `DELETE FROM t` empties `t`,
an insert appends its rows, the pragma changes no table. -/
def applyOp (s : DBState) : LoadOp → DBState
  | .pragmaFK => s
  | .del t => fun u => if u = t then [] else s u
  | .ins t rows => fun u => if u = t then s u ++ rows else s u

/-- Run the statements in order inside the transaction; `failAt i = true`
makes the `i`-th statement raise (constraint violation, connection loss, …),
aborting the sequence. -/
def runOps (failAt : Nat → Bool) : Nat → DBState → List LoadOp → Except Nat DBState
  | _, s, [] => .ok s
  | i, s, op :: ops =>
    if failAt i then .error i else runOps failAt (i + 1) (applyOp s op) ops

/-- `load.load`'s transaction under `engine.begin()` semantics: the new state
is committed only when every statement succeeded; any failure rolls the store
back to its pre-run state. -/
def load (failAt : Nat → Bool) (inp : LoadInputs) (s : DBState) : DBState :=
  match runOps failAt 0 s (loadOps inp) with
  | .ok s' => s'
  | .error _ => s

/-- Modelled from the spec: the fully replaced store, in which every table
holds exactly the rows of the current run (spec §4.3, behind claim C1). -/
def specFullReplace (inp : LoadInputs) : DBState := fun t =>
  match t with
  | .movies => inp.movies
  | .genres => inp.genres
  | .users => inp.users
  | .movie_genres => inp.movieGenres
  | .ratings => inp.ratings
  | .omdb_details => inp.omdb

/-! ## Lemmas about the transaction runner -/

theorem runOps_ok (failAt : Nat → Bool) :
    ∀ (ops : List LoadOp) (i : Nat) (s : DBState),
      (∀ j, j < ops.length → failAt (i + j) = false) →
      runOps failAt i s ops = .ok (ops.foldl applyOp s) := by
  intro ops
  induction ops with
  | nil => intro i s _; rfl
  | cons op ops ih =>
    intro i s h
    have h0 : failAt i = false := by simpa using h 0 (by simp)
    simp only [runOps, h0, Bool.false_eq_true, if_false, List.foldl_cons]
    exact ih (i + 1) (applyOp s op) fun j hj => by
      have := h (j + 1) (by simpa using Nat.succ_lt_succ hj)
      simpa [Nat.add_assoc, Nat.add_comm 1 j] using this

theorem runOps_error (failAt : Nat → Bool) :
    ∀ (ops : List LoadOp) (i : Nat) (s : DBState),
      (∃ j, j < ops.length ∧ failAt (i + j) = true) →
      ∃ e, runOps failAt i s ops = .error e := by
  intro ops
  induction ops with
  | nil => intro i s ⟨j, hj, _⟩; exact absurd hj (by simp)
  | cons op ops ih =>
    intro i s ⟨j, hj, hf⟩
    by_cases h0 : failAt i = true
    · exact ⟨i, by simp [runOps, h0]⟩
    · have hj0 : j ≠ 0 := by
        intro h; subst h; simp at hf; exact h0 hf
      obtain ⟨j', rfl⟩ := Nat.exists_eq_succ_of_ne_zero hj0
      obtain ⟨e, he⟩ := ih (i + 1) (applyOp s op) ⟨j', by
        refine ⟨by simpa using Nat.lt_of_succ_lt_succ hj, ?_⟩
        simpa [Nat.add_assoc, Nat.add_comm 1 j'] using hf⟩
      exact ⟨e, by simp [runOps, h0, he]⟩

theorem foldl_loadOps (inp : LoadInputs) (s : DBState) :
    (loadOps inp).foldl applyOp s = specFullReplace inp := by
  funext t
  by_cases h : inp.omdb.isEmpty
  · have h' : inp.omdb = [] := by simpa [List.isEmpty_iff] using h
    cases t <;>
      simp [loadOps, deleteOrder, h, List.foldl, applyOp, specFullReplace, h']
  · cases t <;>
      simp [loadOps, deleteOrder, h, List.foldl, applyOp, specFullReplace]

/-- C1: the whole delete+insert of all six tables runs inside a single
transaction; if any statement fails at any point the entire transaction rolls
back and every table returns to its pre-run state, and when no statement
fails the committed state is exactly the full replacement — never a
half-replaced store. -/
theorem load_single_transaction_atomic (failAt : Nat → Bool) (inp : LoadInputs) (s : DBState) :
    ((∃ i, i < (loadOps inp).length ∧ failAt i = true) → load failAt inp s = s) ∧
    ((∀ i, i < (loadOps inp).length → failAt i = false) →
      load failAt inp s = specFullReplace inp) := by
  constructor
  · intro ⟨i, hi, hf⟩
    obtain ⟨e, he⟩ := runOps_error failAt (loadOps inp) 0 s ⟨i, hi, by simpa using hf⟩
    simp [load, he]
  · intro h
    have hok := runOps_ok failAt (loadOps inp) 0 s fun j hj => by simpa using h j hj
    simp [load, hok, foldl_loadOps]

/-- Witness for C1: with six one-row tables, forcing the final statement (the
`omdb_details` insert, statement 12) to fail leaves the store at its pre-run
state, and a failure-free run commits the full replacement. -/
theorem load_single_transaction_atomic_witness :
    load (fun i => decide (i = 12))
        ⟨[[Cell.int 1]], [[Cell.int 2]], [[Cell.int 3]], [[Cell.int 4]], [[Cell.int 5]],
          [[Cell.int 6]]⟩ (fun _ => []) = (fun _ => []) ∧
      load (fun _ => false)
          ⟨[[Cell.int 1]], [[Cell.int 2]], [[Cell.int 3]], [[Cell.int 4]], [[Cell.int 5]],
            [[Cell.int 6]]⟩ (fun _ => []) =
        specFullReplace
          ⟨[[Cell.int 1]], [[Cell.int 2]], [[Cell.int 3]], [[Cell.int 4]], [[Cell.int 5]],
            [[Cell.int 6]]⟩ :=
  ⟨(load_single_transaction_atomic _ _ _).1 ⟨12, by decide, by decide⟩,
    (load_single_transaction_atomic _ _ _).2 (by decide)⟩

/-- C2: inside the load transaction the statements are, in program order, the
foreign-key pragma, the deletes in reverse-dependency order `ratings`,
`movie_genres`, `omdb_details`, `users`, `genres`, `movies`, and the inserts
in forward-dependency order `movies`, `genres`, `users`, `movie_genres`,
`ratings`, with `omdb_details` inserted only when that table is non-empty. -/
theorem loadOps_delete_insert_order (inp : LoadInputs) :
    loadOps inp =
      [LoadOp.pragmaFK, LoadOp.del .ratings, LoadOp.del .movie_genres,
        LoadOp.del .omdb_details, LoadOp.del .users, LoadOp.del .genres, LoadOp.del .movies,
        LoadOp.ins .movies inp.movies, LoadOp.ins .genres inp.genres,
        LoadOp.ins .users inp.users, LoadOp.ins .movie_genres inp.movieGenres,
        LoadOp.ins .ratings inp.ratings] ++
      (if inp.omdb = [] then [] else [LoadOp.ins .omdb_details inp.omdb]) := by
  cases h : inp.omdb <;> simp [loadOps, deleteOrder, h]

/-! ## Totality of the four parsers -/

theorem infer_year_ok (v : PyVal) : ∃ o, _infer_year_from_title v = .ok o := by
  cases v with
  | nonStr => exact ⟨none, rfl⟩
  | str s =>
    simp only [_infer_year_from_title]
    cases yearGroup (pyStrip s.data) with
    | none => exact ⟨none, rfl⟩
    | some g =>
      cases hg : pyInt g with
      | error e => exact ⟨none, by simp [hg]⟩
      | ok y =>
        by_cases hr : 1870 ≤ y ∧ y ≤ 2100
        · exact ⟨some y.toNat, by simp [hg, hr]⟩
        · exact ⟨none, by simp [hg, hr]⟩

theorem box_office_ok (v : PyVal) : ∃ o, _parse_box_office v = .ok o := by
  cases v with
  | nonStr => exact ⟨none, rfl⟩
  | str s =>
    by_cases hna : s = "N/A"
    · exact ⟨none, by simp [_parse_box_office, hna]⟩
    · cases hf : s.data.filter Char.isDigit with
      | nil => exact ⟨none, by simp [_parse_box_office, hna, hf]⟩
      | cons c cs =>
        have hd : digitsShape (c :: cs) = true := by
          have hall : ∀ x ∈ c :: cs, Char.isDigit x = true := by
            intro x hx
            rw [← hf] at hx
            exact (List.mem_filter.mp hx).2
          simp only [digitsShape, List.isEmpty_cons, Bool.not_false, Bool.true_and,
            List.all_eq_true]
          exact hall
        exact ⟨some (digitsVal (c :: cs)),
          by simp [_parse_box_office, hna, hf, pyInt, hd]⟩

theorem firstDigitRun_digits :
    ∀ {l ds : List Char}, firstDigitRun l = some ds → digitsShape ds = true := by
  intro l
  induction l with
  | nil => intro ds h; exact absurd h (by simp [firstDigitRun])
  | cons c cs ih =>
    intro ds h
    by_cases hc : c.isDigit = true
    · simp only [firstDigitRun, hc, if_true, Option.some.injEq] at h
      subst h
      simp only [digitsShape, List.isEmpty_cons, Bool.not_false, Bool.true_and,
        List.all_eq_true]
      intro x hx
      rcases List.mem_cons.mp hx with rfl | hx
      · exact hc
      · exact List.mem_takeWhile_imp hx
    · simp only [firstDigitRun, hc, Bool.false_eq_true, if_false] at h
      exact ih h

theorem runtime_ok (v : PyVal) : ∃ o, _parse_runtime v = .ok o := by
  cases v with
  | nonStr => exact ⟨none, rfl⟩
  | str s =>
    by_cases hna : s = "N/A"
    · exact ⟨none, by simp [_parse_runtime, hna]⟩
    · cases hr : firstDigitRun s.data with
      | none => exact ⟨none, by simp [_parse_runtime, hna, hr]⟩
      | some ds =>
        exact ⟨some (digitsVal ds),
          by simp [_parse_runtime, hna, hr, pyInt, firstDigitRun_digits hr]⟩

theorem released_ok (td : String → Except Unit PyDate) (v : PyVal) :
    ∃ o, _parse_released td v = .ok o := by
  cases v with
  | nonStr => exact ⟨none, rfl⟩
  | str s =>
    by_cases hna : s = "N/A"
    · exact ⟨none, by simp [_parse_released, hna]⟩
    · cases ht : td s with
      | ok d => exact ⟨some (isoformat d), by simp [_parse_released, hna, ht]⟩
      | error e => exact ⟨none, by simp [_parse_released, hna, ht]⟩

/-- C10: the four normalization parsers are total — for every input value of
any Python type (strings, including `"N/A"` and unparseable text, and
non-strings) and every behaviour of the external date parser, each returns
normally with a parsed value or `None`; no exception escapes. -/
theorem parsers_never_raise (td : String → Except Unit PyDate) (v : PyVal) :
    (∃ o, _infer_year_from_title v = .ok o) ∧ (∃ o, _parse_box_office v = .ok o) ∧
      (∃ o, _parse_runtime v = .ok o) ∧ (∃ o, _parse_released td v = .ok o) :=
  ⟨infer_year_ok v, box_office_ok v, runtime_ok v, released_ok td v⟩

/-! ## Year derivation versus the spec shape -/

theorem spec_vs_yearGroup (l : List Char) :
    (match yearGroup l with
      | some g =>
        match pyInt g with
        | .ok y => if 1870 ≤ y ∧ y ≤ 2100 then Except.ok (some y.toNat) else Except.ok none
        | .error _ => Except.ok none
      | none => (Except.ok none : Except Unit (Option Nat))) =
      .ok (specYearOfTitle l) := by
  unfold yearGroup specYearOfTitle
  cases yearWindow l with
  | none => rfl
  | some w =>
    obtain ⟨a, d1, d2, d3, d4, b⟩ := w
    by_cases hc : a = '(' ∧ b = ')' ∧ d1.isDigit ∧ d2.isDigit ∧ d3.isDigit ∧ d4.isDigit
    · have hshape : digitsShape [d1, d2, d3, d4] = true := by
        simp [digitsShape, hc.2.2.1, hc.2.2.2.1, hc.2.2.2.2.1, hc.2.2.2.2.2]
      simp only [if_pos hc, pyInt, hshape, if_true]
      generalize digitsVal [d1, d2, d3, d4] = n
      by_cases hr : 1870 ≤ n ∧ n ≤ 2100
      · have hri : 1870 ≤ (n : Int) ∧ (n : Int) ≤ 2100 := by omega
        simp [hri, hr]
      · have hri : ¬(1870 ≤ (n : Int) ∧ (n : Int) ≤ 2100) := by omega
        simp [hri, hr]
    · simp [hc]

/-- Counterexample to C3 as stated: the title `"Heat (1995) "` carries a
trailing space, so its final six characters are not a parenthesised four-digit
value — under the spec's shape it has no year — yet the code strips the title
first and derives 1995. -/
theorem infer_year_trailing_space_cex :
    _infer_year_from_title (.str "Heat (1995) ") = .ok (some 1995) ∧
      specYearOfTitle "Heat (1995) ".data = none := by
  exact ⟨rfl, rfl⟩

/-- C3 as amended: year derivation agrees with the spec's shape rule applied
to the whitespace-stripped title — after stripping, a title ending in a
four-digit value in parentheses with the value in `[1870, 2100]` yields that
value, and any other stripped shape (or an out-of-range value) yields
absent. -/
theorem infer_year_matches_spec_on_stripped (s : String) :
    _infer_year_from_title (.str s) = .ok (specYearOfTitle (pyStrip s.data)) :=
  spec_vs_yearGroup (pyStrip s.data)

/-! ## Retry behaviour of the enrichment fetch -/

/-- C4: when every attempt fails at the transport level, `_fetch_omdb_raw`
issues exactly 3 requests, sleeping `attempt × 500 ms` after each failed
attempt (500 ms, 1000 ms, 1500 ms — linearly increasing with fixed base
0.5 s), and returns `None`; the fetch loop then drops that record — the
retained rows are exactly those of the remaining records — and continues with
the next record instead of aborting. -/
theorem fetch_retries_then_skips (oracle : Nat → Option Payload)
    (oracleOf : String → Nat → Option Payload) (tid : String) (r : LinkRow)
    (rs : List LinkRow) (limit count : Nat) (hall : ∀ a, oracle a = none)
    (hid : _imdb_tt r.imdbId = some tid) (hallOf : ∀ a, oracleOf tid a = none) :
    _fetch_omdb_raw oracle 3 500 =
        (none, [.request 1, .sleep 500, .request 2, .sleep 1000, .request 3, .sleep 1500]) ∧
      fetchLoop oracleOf limit (r :: rs) count =
        ((fetchLoop oracleOf limit rs count).1,
          [AcqEv.apiReq tid 1, AcqEv.apiSleep 500, AcqEv.apiReq tid 2, AcqEv.apiSleep 1000,
              AcqEv.apiReq tid 3, AcqEv.apiSleep 1500] ++
            (fetchLoop oracleOf limit rs count).2) := by
  have htrace : ∀ g : Nat → Option Payload, (∀ a, g a = none) →
      _fetch_omdb_raw g 3 500 =
        (none, [.request 1, .sleep 500, .request 2, .sleep 1000, .request 3, .sleep 1500]) := by
    intro g hg
    simp [_fetch_omdb_raw, fetchAttempts, hg]
  refine ⟨htrace oracle hall, ?_⟩
  simp only [fetchLoop, hid, htrace (oracleOf tid) hallOf]
  rfl

/-- Witness for C4: a concrete always-failing oracle on a one-record tail. -/
theorem fetch_retries_then_skips_witness :
    _fetch_omdb_raw (fun _ => none) 3 500 =
        (none, [.request 1, .sleep 500, .request 2, .sleep 1000, .request 3, .sleep 1500]) ∧
      fetchLoop (fun _ _ => none) 100 [⟨some 1, some 1⟩, ⟨some 2, some 2⟩] 0 =
        ((fetchLoop (fun _ _ => none) 100 [⟨some 2, some 2⟩] 0).1,
          [AcqEv.apiReq "tt0000001" 1, AcqEv.apiSleep 500, AcqEv.apiReq "tt0000001" 2,
              AcqEv.apiSleep 1000, AcqEv.apiReq "tt0000001" 3, AcqEv.apiSleep 1500] ++
            (fetchLoop (fun _ _ => none) 100 [⟨some 2, some 2⟩] 0).2) :=
  fetch_retries_then_skips (fun _ => none) (fun _ _ => none) "tt0000001" ⟨some 1, some 1⟩
    [⟨some 2, some 2⟩] 100 0 (fun _ => rfl) rfl (fun _ => rfl)

/-! ## Skip-if-present behaviour of the acquisition run -/

theorem fetchLoop_no_fs_events (oracleOf : String → Nat → Option Payload) (limit : Nat) :
    ∀ (links : List LinkRow) (count : Nat),
      AcqEv.download ∉ (fetchLoop oracleOf limit links count).2 ∧
        AcqEv.unzip ∉ (fetchLoop oracleOf limit links count).2 ∧
        AcqEv.writeCache ∉ (fetchLoop oracleOf limit links count).2 := by
  intro links
  induction links with
  | nil => intro count; simp [fetchLoop]
  | cons r rs ih =>
    intro count
    have hmap : ∀ (tid : String) (l : List FetchEv),
        AcqEv.download ∉ l.map (fetchEvToAcq tid) ∧
          AcqEv.unzip ∉ l.map (fetchEvToAcq tid) ∧
          AcqEv.writeCache ∉ l.map (fetchEvToAcq tid) := by
      intro tid l
      refine ⟨?_, ?_, ?_⟩ <;>
        · intro h
          obtain ⟨fe, _, hfe⟩ := List.mem_map.mp h
          cases fe <;> simp [fetchEvToAcq] at hfe
    simp only [fetchLoop]
    cases _imdb_tt r.imdbId with
    | none => exact ih count
    | some tid =>
      cases hres : (_fetch_omdb_raw (oracleOf tid) 3 500).1 with
      | none =>
        simp only [hres, List.mem_append]
        have h1 := hmap tid (_fetch_omdb_raw (oracleOf tid) 3 500).2
        have h2 := ih count
        exact ⟨fun h => h.elim (h1.1 ·) (h2.1 ·), fun h => h.elim (h1.2.1 ·) (h2.2.1 ·),
          fun h => h.elim (h1.2.2 ·) (h2.2.2 ·)⟩
      | some payload =>
        simp only [hres]
        by_cases hlim : limit ≤ count + 1
        · simpa [hlim] using hmap tid (_fetch_omdb_raw (oracleOf tid) 3 500).2
        · simp only [hlim, if_false, List.mem_append]
          have h1 := hmap tid (_fetch_omdb_raw (oracleOf tid) 3 500).2
          have h2 := ih (count + 1)
          exact ⟨fun h => h.elim (h1.1 ·) (h2.1 ·), fun h => h.elim (h1.2.1 ·) (h2.2.1 ·),
            fun h => h.elim (h1.2.2 ·) (h2.2.2 ·)⟩

/-- Counterexample to C5 as stated: on a file-system state where the archive,
the unpacked directory and the raw enrichment cache file all already exist,
the acquisition run still issues an OMDb API request and rewrites the cache
file — the enrichment fetch and cache write are not skipped when the cache
exists. -/
theorem extract_refetches_despite_cache_cex :
    extractRun ⟨true, true, true, true⟩ (some "k") 100 [⟨some 1, some 1⟩]
        (fun _ _ => some "p") =
        .ok ([AcqEv.apiReq "tt0000001" 1, AcqEv.writeCache], ⟨true, true, true, true⟩) ∧
      AcqEv.apiReq "tt0000001" 1 ∈ [AcqEv.apiReq "tt0000001" 1, AcqEv.writeCache] :=
  ⟨rfl, by decide⟩

/-- C5 as amended: the archive download is skipped when the archive already
exists and unpacking is skipped when the unpacked directory already exists,
but the per-record enrichment fetch and the cache write are not guarded by
the cache file's existence — the run's event trace is identical whatever the
cache file's state, so a second run re-fetches enrichment rather than being a
no-op. -/
theorem extract_skip_download_but_not_fetch (fs : AcqFs) (key : Option String)
    (limit : Nat) (links : List LinkRow) (oracleOf : String → Nat → Option Payload)
    (b : Bool) :
    (fs.zipExists = true → ∀ evs fs', extractRun fs key limit links oracleOf = .ok (evs, fs') →
        AcqEv.download ∉ evs) ∧
      (fs.mlDirExists = true → ∀ evs fs', extractRun fs key limit links oracleOf = .ok (evs, fs') →
        AcqEv.unzip ∉ evs) ∧
      (extractRun fs key limit links oracleOf).map Prod.fst =
        (extractRun ⟨fs.zipExists, fs.mlDirExists, fs.dataFilesPresent, b⟩ key limit links
          oracleOf).map Prod.fst := by
  obtain ⟨z, m, d, o⟩ := fs
  cases d with
  | false =>
    refine ⟨fun _ evs fs' h => ?_, fun _ evs fs' h => ?_, rfl⟩ <;>
      simp [extractRun] at h
  | true =>
    cases key with
    | none =>
      refine ⟨fun _ evs fs' h => ?_, fun _ evs fs' h => ?_, rfl⟩ <;>
        simp [extractRun] at h
    | some k =>
      have hfl := fetchLoop_no_fs_events oracleOf limit links 0
      refine ⟨?_, ?_, rfl⟩
      · rintro hz evs fs' h
        simp only [extractRun, if_true, Except.ok.injEq, Prod.mk.injEq] at h
        rw [← h.1]
        subst hz
        simp only [List.mem_append, not_or]
        refine ⟨⟨⟨?_, ?_⟩, ?_⟩, ?_⟩
        · simp [_download_zip]
        · cases m <;> simp
        · exact hfl.1
        · cases hw : (fetchLoop oracleOf limit links 0).1.isEmpty <;> simp [hw]
      · rintro hm evs fs' h
        simp only [extractRun, if_true, Except.ok.injEq, Prod.mk.injEq] at h
        rw [← h.1]
        subst hm
        simp only [List.mem_append, not_or]
        refine ⟨⟨⟨?_, ?_⟩, ?_⟩, ?_⟩
        · cases z <;> simp [_download_zip]
        · simp
        · exact hfl.2.1
        · cases hw : (fetchLoop oracleOf limit links 0).1.isEmpty <;> simp [hw]

/-- Witness for C5's amended theorem: with everything already present, the
download is absent from the trace, and the trace is unchanged when the cache
file's existence flag is flipped. -/
theorem extract_skip_download_but_not_fetch_witness :
    AcqEv.download ∉ [AcqEv.apiReq "tt0000001" 1, AcqEv.writeCache] ∧
      (extractRun ⟨true, true, true, false⟩ (some "k") 100 [⟨some 1, some 1⟩]
          (fun _ _ => some "p")).map Prod.fst =
        (extractRun ⟨true, true, true, true⟩ (some "k") 100 [⟨some 1, some 1⟩]
          (fun _ _ => some "p")).map Prod.fst :=
  ⟨(extract_skip_download_but_not_fetch ⟨true, true, true, false⟩ (some "k") 100
        [⟨some 1, some 1⟩] (fun _ _ => some "p") true).1 rfl _ _ rfl,
    (extract_skip_download_but_not_fetch ⟨true, true, true, false⟩ (some "k") 100
        [⟨some 1, some 1⟩] (fun _ _ => some "p") true).2.2⟩

/-! ## The normalizer without the optional enrichment input -/

theorem mapExcept_ok (f : α → Except ε β) :
    ∀ l : List α, (∀ a ∈ l, ∃ b, f a = .ok b) → ∃ bs, mapExcept f l = .ok bs := by
  intro l
  induction l with
  | nil => exact fun _ => ⟨[], rfl⟩
  | cons a l ih =>
    intro h
    obtain ⟨b, hb⟩ := h a (by simp)
    obtain ⟨bs, hbs⟩ := ih fun x hx => h x (by simp [hx])
    exact ⟨b :: bs, by simp [mapExcept, hb, hbs]⟩

/-- C6: when the raw enrichment file is absent, the normalizer does not fail —
it completes with an empty OmdbDetail table and writes exactly the five other
entity outputs. -/
theorem transform_graceful_without_enrichment (td : String → Except Unit PyDate)
    (inp : TransformInput) (movies : List MovieRow) (ratings : List RatingRow)
    (h1 : inp.moviesCsv = some movies) (h2 : inp.ratingsCsv = some ratings)
    (h3 : inp.omdbRaw = none) :
    ∃ out, transform td inp = .ok out ∧ out.omdb = [] ∧
      out.writes = ["movies.csv", "genres.csv", "movie_genres.csv", "users.csv", "ratings.csv"] := by
  obtain ⟨mn, hmn⟩ := mapExcept_ok
    (fun r : MovieRow =>
      (_infer_year_from_title (.str r.title)).map fun y => (r.movieId, r.title, y))
    movies
    (fun r _ => by
      obtain ⟨o, ho⟩ := infer_year_ok (.str r.title)
      exact ⟨(r.movieId, r.title, o), by simp only []; rw [ho]; rfl⟩)
  simp only [transform, h1, h2, h3, hmn]
  exact ⟨_, rfl, rfl, rfl⟩

/-- Witness for C6 at a concrete input with no enrichment file. -/
theorem transform_graceful_without_enrichment_witness :
    ∃ out, transform (fun _ => .error ()) ⟨some [], some [], none⟩ = .ok out ∧ out.omdb = [] ∧
      out.writes = ["movies.csv", "genres.csv", "movie_genres.csv", "users.csv", "ratings.csv"] :=
  transform_graceful_without_enrichment (fun _ => .error ()) ⟨some [], some [], none⟩ [] []
    rfl rfl rfl

/-! ## Loader validation and type coercion -/

/-- C7 as amended: the loader fails with a missing-file error naming each
absent file, in `FILES` order, whenever any of the six expected normalized
files does not exist; otherwise it succeeds exactly when every column listed
in each table's `astype` mapping coerces to its declared type — all §3
columns except `movies.title` and `movies.year`, which are passed through as
read — and fails when such a coercion is impossible. -/
theorem read_processed_validates_and_coerces (d : ProcessedDir) :
    (FILES.filter (fun n => (d.files n).isNone) ≠ [] →
        _read_processed d =
          .error (.missingFiles (FILES.filter fun n => (d.files n).isNone))) ∧
      (FILES.filter (fun n => (d.files n).isNone) = [] →
        ((∃ t, _read_processed d = .ok t) ↔ allSixCoerce d = true)) := by
  constructor
  · intro h
    cases hm : FILES.filter (fun n => (d.files n).isNone) with
    | nil => exact absurd hm h
    | cons m ms => simp [_read_processed, _validate_files, hm]
  · intro h
    have hv : _validate_files d = .ok () := by simp [_validate_files, h]
    constructor
    · rintro ⟨t, ht⟩
      simp only [_read_processed, hv] at ht
      split at ht
      case _ m g mg u r o h1 h2 h3 h4 h5 h6 =>
        simp [allSixCoerce, h1, h2, h3, h4, h5, h6]
      case _ => exact absurd ht (by simp)
    · intro hc
      simp only [allSixCoerce, Bool.and_eq_true, Option.isSome_iff_exists] at hc
      obtain ⟨⟨⟨⟨⟨⟨m, h1⟩, g, h2⟩, mg, h3⟩, u, h4⟩, r, h5⟩, o, h6⟩ := hc
      exact ⟨(m, g, mg, u, r, o), by simp [_read_processed, hv, h1, h2, h3, h4, h5, h6]⟩

/-- Counterexample to C7 as stated: a processed directory whose six files all
exist, with one `movies.csv` row whose `year` cell is the non-numeric text
`"abc"`. A §3-typed coercion of `movies.csv` (`movie_id` integer, `title`
string, `year` optional integer) is impossible on this row, yet the loader
succeeds, because its `astype` mapping for `movies.csv` coerces only
`movie_id` and leaves `title` and `year` as read. -/
theorem read_processed_untyped_year_cex :
    (∃ t, _read_processed
          ⟨fun n =>
            if n = "movies.csv" then some [["1".data, "T".data, "abc".data]]
            else if n ∈ FILES then some [] else none⟩ = .ok t) ∧
      coerceTable specMoviesSchema [["1".data, "T".data, "abc".data]] = none :=
  ⟨⟨_, rfl⟩, rfl⟩

/-- Witness for C7's amended theorem: an empty directory fails naming all six
files, and a directory of six empty files succeeds exactly when all (here:
trivially) coerce. -/
theorem read_processed_validates_and_coerces_witness :
    _read_processed ⟨fun _ => none⟩ = .error (.missingFiles FILES) ∧
      ((∃ t, _read_processed ⟨fun n => if n ∈ FILES then some [] else none⟩ = .ok t) ↔
        allSixCoerce ⟨fun n => if n ∈ FILES then some [] else none⟩ = true) :=
  ⟨(read_processed_validates_and_coerces ⟨fun _ => none⟩).1 (by decide),
    (read_processed_validates_and_coerces _).2 (by decide)⟩

/-! ## Order and deduplication lemmas for genre explosion -/

theorem strLeb_total : ∀ a b : List Char, strLeb a b = true ∨ strLeb b a = true := by
  intro a
  induction a with
  | nil => intro b; exact Or.inl rfl
  | cons x xs ih =>
    intro b
    cases b with
    | nil => exact Or.inr rfl
    | cons y ys =>
      by_cases h1 : x.toNat < y.toNat
      · exact Or.inl (by simp [strLeb, h1])
      · by_cases h2 : y.toNat < x.toNat
        · exact Or.inr (by simp [strLeb, h2])
        · rcases ih ys with h | h
          · exact Or.inl (by simp [strLeb, h1, h2, h])
          · exact Or.inr (by simp [strLeb, h1, h2, h])

theorem strLeb_trans :
    ∀ a b c : List Char, strLeb a b = true → strLeb b c = true → strLeb a c = true := by
  intro a
  induction a with
  | nil => intro b c _ _; rfl
  | cons x xs ih =>
    intro b c hab hbc
    cases b with
    | nil => simp [strLeb] at hab
    | cons y ys =>
      cases c with
      | nil => simp [strLeb] at hbc
      | cons z zs =>
        simp only [strLeb] at hab hbc ⊢
        by_cases hxy : x.toNat < y.toNat
        · by_cases hyz : y.toNat < z.toNat
          · rw [if_pos (Nat.lt_trans hxy hyz)]
          · rw [if_neg hyz] at hbc
            by_cases hzy : z.toNat < y.toNat
            · rw [if_pos hzy] at hbc; exact absurd hbc (by simp)
            · rw [if_pos (show x.toNat < z.toNat by omega)]
        · by_cases hyx : y.toNat < x.toNat
          · rw [if_neg hxy, if_pos hyx] at hab; exact absurd hab (by simp)
          · rw [if_neg hxy, if_neg hyx] at hab
            by_cases hyz : y.toNat < z.toNat
            · rw [if_pos (show x.toNat < z.toNat by omega)]
            · rw [if_neg hyz] at hbc
              by_cases hzy : z.toNat < y.toNat
              · rw [if_pos hzy] at hbc; exact absurd hbc (by simp)
              · rw [if_neg hzy] at hbc
                rw [if_neg (show ¬x.toNat < z.toNat by omega),
                  if_neg (show ¬z.toNat < x.toNat by omega)]
                exact ih ys zs hab hbc

theorem pairLe_total (a b : Nat × List Char) : pairLe a b ∨ pairLe b a := by
  unfold pairLe pairLE
  rcases Nat.lt_trichotomy a.1 b.1 with h | h | h
  · exact Or.inl (by simp [h])
  · rcases strLeb_total a.2 b.2 with hs | hs
    · exact Or.inl (by simp [h, hs])
    · exact Or.inr (by simp [h.symm, hs])
  · exact Or.inr (by simp [h])

theorem pairLe_trans (a b c : Nat × List Char) : pairLe a b → pairLe b c → pairLe a c := by
  unfold pairLe pairLE
  intro hab hbc
  simp only [Bool.or_eq_true, Bool.and_eq_true, decide_eq_true_eq] at hab hbc ⊢
  rcases hab with hab | ⟨hab1, hab2⟩
  · rcases hbc with hbc | ⟨hbc1, hbc2⟩
    · exact Or.inl (Nat.lt_trans hab hbc)
    · exact Or.inl (hbc1 ▸ hab)
  · rcases hbc with hbc | ⟨hbc1, hbc2⟩
    · exact Or.inl (hab1 ▸ hbc)
    · exact Or.inr ⟨hab1.trans hbc1, strLeb_trans _ _ _ hab2 hbc2⟩

instance : IsTotal (Nat × List Char) pairLe := ⟨pairLe_total⟩

instance : IsTrans (Nat × List Char) pairLe := ⟨pairLe_trans⟩

theorem mem_pdDropDupGo [DecidableEq α] (x : α) :
    ∀ (l seen : List α), x ∈ pdDropDupGo seen l ↔ x ∈ l ∧ x ∉ seen := by
  intro l
  induction l with
  | nil => intro seen; simp [pdDropDupGo]
  | cons a l ih =>
    intro seen
    by_cases ha : a ∈ seen
    · rw [pdDropDupGo, if_pos ha, ih]
      constructor
      · rintro ⟨h1, h2⟩
        exact ⟨List.mem_cons_of_mem _ h1, h2⟩
      · rintro ⟨h1, h2⟩
        rcases List.mem_cons.mp h1 with rfl | h1
        · exact absurd ha h2
        · exact ⟨h1, h2⟩
    · rw [pdDropDupGo, if_neg ha]
      constructor
      · intro h
        rcases List.mem_cons.mp h with rfl | h
        · exact ⟨List.mem_cons_self _ _, ha⟩
        · obtain ⟨h1, h2⟩ := (ih (a :: seen)).mp h
          exact ⟨List.mem_cons_of_mem _ h1, fun hx => h2 (List.mem_cons_of_mem _ hx)⟩
      · rintro ⟨h1, h2⟩
        rcases List.mem_cons.mp h1 with rfl | h1
        · exact List.mem_cons_self _ _
        · by_cases hxa : x = a
          · exact hxa ▸ List.mem_cons_self _ _
          · exact List.mem_cons_of_mem _
              ((ih (a :: seen)).mpr ⟨h1, by simp [hxa, h2]⟩)

theorem nodup_pdDropDupGo [DecidableEq α] :
    ∀ (l seen : List α), (pdDropDupGo seen l).Nodup := by
  intro l
  induction l with
  | nil => intro seen; exact List.nodup_nil
  | cons a l ih =>
    intro seen
    by_cases ha : a ∈ seen
    · rw [pdDropDupGo, if_pos ha]; exact ih seen
    · rw [pdDropDupGo, if_neg ha]
      rw [List.nodup_cons]
      refine ⟨fun hmem => ?_, ih (a :: seen)⟩
      exact ((mem_pdDropDupGo a l (a :: seen)).mp hmem).2 (List.mem_cons_self _ _)

theorem mem_pdDropDup [DecidableEq α] (x : α) (l : List α) : x ∈ pdDropDup l ↔ x ∈ l := by
  rw [pdDropDup, mem_pdDropDupGo]
  simp

theorem nodup_pdDropDup [DecidableEq α] (l : List α) : (pdDropDup l).Nodup :=
  nodup_pdDropDupGo l []

/-- C8: genre explosion splits each movie's genre field on `"|"`, trims each
token, drops empty tokens and the case-insensitive `"(no genres listed)"`
sentinel, deduplicates the `(movie_id, genre)` pairs, and emits them sorted by
`(movie_id, genre)`: the output is sorted, has no duplicates, contains exactly
the kept split-trimmed pairs, and carries no empty or sentinel genre. -/
theorem genre_explosion_props (movies : List MovieRow) :
    (explodeGenres movies).Pairwise pairLe ∧
      (explodeGenres movies).Nodup ∧
      (∀ p : Nat × List Char,
        p ∈ explodeGenres movies ↔
          ((∃ r ∈ movies, ∃ tok ∈ pySplit '|' ((r.genres.getD "").data),
              p = (r.movieId, pyStrip tok)) ∧
            keepTok p.2 = true)) ∧
      ∀ p ∈ explodeGenres movies, p.2 ≠ [] ∧ pyLower p.2 ≠ "(no genres listed)".data := by
  have hperm :=
    List.perm_insertionSort pairLe
      (pdDropDup ((explodePairs movies).filter fun p => keepTok p.2))
  have hmem : ∀ p : Nat × List Char,
      p ∈ explodeGenres movies ↔
        ((∃ r ∈ movies, ∃ tok ∈ pySplit '|' ((r.genres.getD "").data),
            p = (r.movieId, pyStrip tok)) ∧
          keepTok p.2 = true) := by
    intro p
    rw [explodeGenres, hperm.mem_iff, mem_pdDropDup, List.mem_filter]
    simp only [explodePairs, List.mem_flatMap, List.mem_map]
    constructor
    · rintro ⟨⟨r, hr, tok, htok, rfl⟩, hk⟩
      exact ⟨⟨r, hr, tok, htok, rfl⟩, hk⟩
    · rintro ⟨⟨r, hr, tok, htok, rfl⟩, hk⟩
      exact ⟨⟨r, hr, tok, htok, rfl⟩, hk⟩
  refine ⟨List.sorted_insertionSort pairLe _, ?_, hmem, ?_⟩
  · exact hperm.nodup_iff.mpr (nodup_pdDropDup _)
  · intro p hp
    have hk := ((hmem p).mp hp).2
    simp only [keepTok, Bool.and_eq_true, Bool.not_eq_true', List.isEmpty_eq_false,
      beq_eq_false_iff_ne, ne_eq] at hk
    exact ⟨hk.1, hk.2⟩

/-- Witness for C8: the pair `(1, "A")` produced by exploding the single
movie with genre field `"B|A"` is in the output and is neither empty nor the
sentinel. -/
theorem genre_explosion_props_witness :
    (1, "A".data) ∈ explodeGenres [⟨1, "T", some "B|A"⟩] ∧
      ("A".data ≠ [] ∧ pyLower "A".data ≠ "(no genres listed)".data) := by
  have h := genre_explosion_props [⟨1, "T", some "B|A"⟩]
  have hm : (1, "A".data) ∈ explodeGenres [⟨1, "T", some "B|A"⟩] := by
    refine (h.2.2.1 (1, "A".data)).mpr ⟨⟨⟨1, "T", some "B|A"⟩, by simp, "A".data, ?_, ?_⟩, ?_⟩
    · decide
    · rfl
    · decide
  exact ⟨hm, h.2.2.2 _ hm⟩

/-! ## End-to-end consequences of an empty enrichment fetch -/

theorem fetchAttempts_none (g : Nat → Option Payload) (hg : ∀ a, g a = none) :
    ∀ (n attempt bo : Nat), (fetchAttempts g bo attempt n).1 = none := by
  intro n
  induction n with
  | zero => intro attempt bo; rfl
  | succ n ih =>
    intro attempt bo
    simp only [fetchAttempts, hg attempt]
    exact ih (attempt + 1) bo

theorem fetchLoop_rows_empty (oracleOf : String → Nat → Option Payload) (limit : Nat)
    (hfail : ∀ tid a, oracleOf tid a = none) :
    ∀ (links : List LinkRow) (count : Nat), (fetchLoop oracleOf limit links count).1 = [] := by
  intro links
  induction links with
  | nil => intro count; rfl
  | cons r rs ih =>
    intro count
    simp only [fetchLoop]
    cases _imdb_tt r.imdbId with
    | none => exact ih count
    | some tid =>
      have hnone : (_fetch_omdb_raw (oracleOf tid) 3 500).1 = none :=
        fetchAttempts_none (oracleOf tid) (hfail tid) 3 1 500
      simp only [hnone]
      exact ih count

/-- C9: when the enrichment fetch retains zero records, the acquisition run
succeeds without writing the raw cache file (leaving its existence flag
unchanged); the normalizer, finding no raw enrichment file, succeeds without
writing `omdb_details.csv`; and the loader, finding `omdb_details.csv`
absent, fails with a missing-file error naming it — the "no enrichment
available" outcome cannot be loaded end-to-end. -/
theorem no_enrichment_cannot_load (fs : AcqFs) (key : String) (limit : Nat)
    (links : List LinkRow) (oracleOf : String → Nat → Option Payload)
    (td : String → Except Unit PyDate) (tin : TransformInput) (movies : List MovieRow)
    (ratings : List RatingRow) (d : ProcessedDir) (hdata : fs.dataFilesPresent = true)
    (hfail : ∀ tid a, oracleOf tid a = none) (h1 : tin.moviesCsv = some movies)
    (h2 : tin.ratingsCsv = some ratings) (h3 : tin.omdbRaw = none)
    (hd : d.files "omdb_details.csv" = none) :
    (∃ r, extractRun fs (some key) limit links oracleOf = .ok r) ∧
      (∀ evs fs', extractRun fs (some key) limit links oracleOf = .ok (evs, fs') →
        AcqEv.writeCache ∉ evs ∧ fs'.omdbRawExists = fs.omdbRawExists) ∧
      (∃ out, transform td tin = .ok out ∧ "omdb_details.csv" ∉ out.writes) ∧
      ∃ ms, _read_processed d = .error (.missingFiles ms) ∧ "omdb_details.csv" ∈ ms := by
  have hrows : (fetchLoop oracleOf limit links 0).1 = [] :=
    fetchLoop_rows_empty oracleOf limit hfail links 0
  have hfl := fetchLoop_no_fs_events oracleOf limit links 0
  refine ⟨⟨_, by simp only [extractRun, hdata, if_true]; rfl⟩, ?_, ?_, ?_⟩
  · intro evs fs' h
    simp only [extractRun, hdata, if_true, Except.ok.injEq, Prod.mk.injEq] at h
    obtain ⟨hevs, hfs'⟩ := h
    constructor
    · rw [← hevs, hrows]
      simp only [List.isEmpty_nil, if_true, List.append_nil, List.mem_append, not_or]
      refine ⟨⟨?_, ?_⟩, hfl.2.2⟩
      · cases hz : fs.zipExists <;> simp [_download_zip]
      · cases hm : fs.mlDirExists <;> simp
    · rw [← hfs', hrows]
      simp
  · obtain ⟨mn, hmn⟩ := mapExcept_ok
      (fun r : MovieRow =>
        (_infer_year_from_title (.str r.title)).map fun y => (r.movieId, r.title, y))
      movies
      (fun r _ => by
        obtain ⟨o, ho⟩ := infer_year_ok (.str r.title)
        exact ⟨(r.movieId, r.title, o), by simp only []; rw [ho]; rfl⟩)
    simp only [transform, h1, h2, h3, hmn]
    refine ⟨_, rfl, ?_⟩
    show "omdb_details.csv" ∉
      (["movies.csv", "genres.csv", "movie_genres.csv", "users.csv", "ratings.csv"] : List String)
    decide
  · cases hm : FILES.filter (fun n => (d.files n).isNone) with
    | nil =>
      have : "omdb_details.csv" ∈ FILES.filter (fun n => (d.files n).isNone) :=
        List.mem_filter.mpr ⟨by decide, by simp [hd]⟩
      rw [hm] at this
      exact absurd this (by simp)
    | cons m ms =>
      refine ⟨m :: ms, by simp [_read_processed, _validate_files, hm], ?_⟩
      rw [← hm]
      exact List.mem_filter.mpr ⟨by decide, by simp [hd]⟩

/-- Witness for C9 at concrete inputs: an always-failing oracle, a transform
input with no enrichment file, and a processed directory lacking
`omdb_details.csv`. -/
theorem no_enrichment_cannot_load_witness :
    (∃ r, extractRun ⟨true, true, true, false⟩ (some "k") 100 [⟨some 1, some 1⟩]
        (fun _ _ => none) = .ok r) ∧
      (∀ evs fs', extractRun ⟨true, true, true, false⟩ (some "k") 100 [⟨some 1, some 1⟩]
          (fun _ _ => none) = .ok (evs, fs') →
        AcqEv.writeCache ∉ evs ∧
          fs'.omdbRawExists = (⟨true, true, true, false⟩ : AcqFs).omdbRawExists) ∧
      (∃ out, transform (fun _ => .error ()) ⟨some [], some [], none⟩ = .ok out ∧
        "omdb_details.csv" ∉ out.writes) ∧
      ∃ ms, _read_processed
            ⟨fun n => if n = "omdb_details.csv" then none
              else if n ∈ FILES then some [] else none⟩ =
          .error (.missingFiles ms) ∧ "omdb_details.csv" ∈ ms :=
  no_enrichment_cannot_load ⟨true, true, true, false⟩ "k" 100 [⟨some 1, some 1⟩]
    (fun _ _ => none) (fun _ => .error ()) ⟨some [], some [], none⟩ [] []
    ⟨fun n => if n = "omdb_details.csv" then none else if n ∈ FILES then some [] else none⟩
    rfl (fun _ _ => rfl) rfl rfl rfl rfl
